import Mathlib

/-
  Verification development for the transparent-redirect TCP handler
  (package `redirect`): the darwin original-destination resolver
  (pfctl state-table lookup) and the sniffing/relay dispatcher.

  Strings are modelled as `List Char`; byte streams as `List Nat`
  (a finite stream followed by end-of-stream).
-/

namespace GostRedirect

abbrev Str := List Char

/-- Model of Go `strings.Split(s, sep)` for a one-character separator:
splits around every occurrence of `c`; always returns at least one
(possibly empty) segment. -/
def splitOnChar (c : Char) : Str → List Str
  | [] => [[]]
  | a :: rest =>
    let r := splitOnChar c rest
    if a = c then [] :: r
    else
      match r with
      | [] => [[a]]
      | h :: t => (a :: h) :: t

/-- Model of Go `strings.Contains(hay, needle)`: `needle` occurs as a
contiguous substring of `hay`. -/
def containsSub (needle : Str) : Str → Bool
  | [] => decide (needle = [])
  | a :: rest => needle.isPrefixOf (a :: rest) || containsSub needle rest

/-- The ASCII white-space characters recognised by Go `unicode.IsSpace`
that can occur in pfctl output. -/
def isSpaceChar (c : Char) : Bool :=
  c = ' ' || c = '\t' || c = '\n' || c = '\r'

/-- Model of Go `strings.Fields`: split around runs of white space,
dropping empty segments. -/
def fields : Str → List Str
  | [] => []
  | a :: rest =>
    if isSpaceChar a then fields rest
    else
      match fields rest with
      | [] => [[a]]
      | h :: t =>
        match rest with
        | [] => [[a]]
        | b :: _ => if isSpaceChar b then [a] :: h :: t else (a :: h) :: t

def isDigitChar (c : Char) : Bool := decide ('0' ≤ c) && decide (c ≤ '9')

def digitVal (c : Char) : Nat := c.toNat - '0'.toNat

def digitsToNat (s : Str) : Nat :=
  s.foldl (fun acc c => acc * 10 + digitVal c) 0

/-- Model of Go `strconv.Atoi`: optional sign then a nonempty digit
string; any other input is an error (`none`). Overflow clamping is not
modelled (ports are small). -/
def atoi? (s : Str) : Option Int :=
  match s with
  | [] => none
  | '+' :: rest =>
    if rest ≠ [] ∧ rest.all isDigitChar then some (digitsToNat rest) else none
  | '-' :: rest =>
    if rest ≠ [] ∧ rest.all isDigitChar then some (-(digitsToNat rest : Int)) else none
  | _ => if s.all isDigitChar then some (digitsToNat s) else none

def digitChar (d : Nat) : Char := Char.ofNat (48 + d)

def natDigitsAux : Nat → Nat → Str
  | 0, _ => []
  | fuel + 1, n =>
    if n < 10 then [digitChar n]
    else natDigitsAux fuel (n / 10) ++ [digitChar (n % 10)]

/-- Decimal digits of a natural number, most significant first. -/
def natDigits (n : Nat) : Str := natDigitsAux (n + 1) n

/-- Model of Go `fmt.Sprintf("%d", i)` for an int. -/
def intToStr (i : Int) : Str :=
  if i < 0 then '-' :: natDigits i.natAbs else natDigits i.toNat

/-- Model of `convertPortToInt`: `strconv.Atoi`, logging and discarding
the error, so a non-numeric string becomes 0. -/
def convertPortToInt (port : Str) : Int := (atoi? port).getD 0

/-- Outcome of the state-table lookup: a resolved (address, port), the
"could not resolve original destination" error, or a Go runtime panic
(index out of range). -/
inductive LookupResult where
  | ok (addr : Str) (port : Int)
  | err
  | panicked
  deriving DecidableEq, Repr

/-- The literal state tag `ESTABLISHED:ESTABLISHED` that a line must
carry to be eligible. -/
def estTag : Str := "ESTABLISHED:ESTABLISHED".data

/-- The loop body of `lookup` over the pre-split lines, with the two key
substrings precomputed. Go slice indexing `portPart[1]` is modelled
faithfully: when the 5th field of an IPv6-matched line has no opening
bracket, the split yields a single segment and the access panics. -/
def lookupLines (specv4 specv6 : Str) : List Str → LookupResult
  | [] => .err
  | line :: rest =>
    if containsSub estTag line then
      if containsSub specv4 line then
        let fs := fields line
        if 4 < fs.length then
          let addressPort := splitOnChar ':' (fs.getD 4 [])
          if addressPort.length = 2 then
            .ok (addressPort.getD 0 []) (convertPortToInt (addressPort.getD 1 []))
          else lookupLines specv4 specv6 rest
        else lookupLines specv4 specv6 rest
      else if containsSub specv6 line then
        let fs := fields line
        if 4 < fs.length then
          let portPart := splitOnChar '[' (fs.getD 4 [])
          if portPart.length ≤ 1 then .panicked
          else
            .ok (portPart.getD 0 [])
              (convertPortToInt ((splitOnChar ']' (portPart.getD 1 [])).getD 0 []))
        else lookupLines specv4 specv6 rest
      else lookupLines specv4 specv6 rest
    else lookupLines specv4 specv6 rest

/-- The IPv4-style key substring `addr:port` built by `lookup`. -/
def specV4 (address : Str) (port : Int) : Str := address ++ ':' :: intToStr port

/-- The IPv6-style key substring `addr[port]` built by `lookup`. -/
def specV6 (address : Str) (port : Int) : Str :=
  address ++ '[' :: (intToStr port ++ [']'])

/-- Model of `lookup(address, port, s)` from the darwin resolver: scan
the lines of the pfctl state dump for an `ESTABLISHED:ESTABLISHED` line
containing the IPv4 or IPv6 key substring and return the destination
tuple parsed from the 5th whitespace field. -/
def lookup (address : Str) (port : Int) (s : Str) : LookupResult :=
  lookupLines (specV4 address port) (specV6 address port) (splitOnChar '\n' s)

/-- Model of `PfctlLookup`: run the pfctl state query; on a command
error the Go code calls `panic(err)` (modelled as `.panicked`), else
look the key up in the output. -/
def PfctlLookup (cmdOut : Except Unit Str) (address : Str) (port : Int) : LookupResult :=
  match cmdOut with
  | .error _ => .panicked
  | .ok out => lookup address port out

/-- Model of the key derivation in `LocalToRemote`: split the remote
address string on every colon, take segment 0 as the key host and
`Atoi` of segment 1 (error discarded) as the key port. `none` models
the index-out-of-range panic when the string has no colon. -/
def localToRemoteKey (remote : Str) : Option (Str × Int) :=
  match splitOnChar ':' remote with
  | first :: second :: _ => some (first, (atoi? second).getD 0)
  | _ => none

/-! ## Host/port helpers from Go `net` -/

/-- Model of Go `net.SplitHostPort`: bracketed form `[host]:port` or
plain `host:port` with exactly one colon; `none` models every error
(missing port, too many colons, stray bracket). -/
def splitHostPort (s : Str) : Option (Str × Str) :=
  match s with
  | '[' :: rest =>
    let h := rest.takeWhile (fun c => ¬ c = ']')
    match rest.dropWhile (fun c => ¬ c = ']') with
    | ']' :: ':' :: p =>
      if ':' ∈ p ∨ '[' ∈ p ∨ ']' ∈ p ∨ '[' ∈ h then none else some (h, p)
    | _ => none
  | _ =>
    if '[' ∈ s ∨ ']' ∈ s then none
    else
      match splitOnChar ':' s with
      | [h, p] => some (h, p)
      | _ => none

/-- Model of Go `net.JoinHostPort`: brackets the host when it contains
a colon or a percent sign. -/
def joinHostPort (host port : Str) : Str :=
  if ':' ∈ host ∨ '%' ∈ host then '[' :: (host ++ ']' :: ':' :: port)
  else host ++ ':' :: port

/-! ## Protocol sniffer (the sniffing block of `Handle`)

Byte streams are finite lists of bytes (`List Nat`) followed by
end-of-stream. The HTTP request parser (`net/http.ReadRequest`) is an
external collaborator, abstracted as a predicate `parseHTTP` on the
byte stream it reads from; `consumed` abstracts how many bytes the
buffered reader pulls from the underlying stream while parsing (the
`TeeReader` captures exactly those bytes). -/

abbrev ByteStream := List Nat

/-- `dissector.RecordHeaderLen`: size of a TLS record header. -/
def recordHeaderLen : Nat := 5

/-- `dissector.Handshake`: the TLS handshake record type byte. -/
def handshakeType : Nat := 22

/-- `tls.VersionTLS10` = 0x0301. -/
def versionTLS10 : Nat := 769

/-- Contents of the 5-byte `hdr` array after `io.ReadFull`: the bytes
actually read, with the remaining slots still holding their zero
initialisation when the stream ran short. -/
def hdrArray (s : ByteStream) : ByteStream :=
  s.take recordHeaderLen ++ List.replicate (recordHeaderLen - s.length) 0

/-- The replayed stream after the TLS probe:
`MultiReader(bytes.NewReader(hdr[:]), rw)` — all five array bytes, then
the live remainder. -/
def afterTLSProbe (s : ByteStream) : ByteStream :=
  hdrArray s ++ s.drop recordHeaderLen

/-- The TLS dispatch condition of `Handle`: `err == nil` from
`io.ReadFull` (the stream supplied the full header), `hdr[0]` is the
handshake type, and `BigEndian.Uint16(hdr[1:3])` is the TLS 1.0
version. When the full header was read, `hdr[i]` is byte `i` of the
stream, so the condition is stated on the stream directly. -/
def tlsCond (s : ByteStream) : Prop :=
  recordHeaderLen ≤ s.length ∧
    s.getD 0 0 = handshakeType ∧
    s.getD 1 0 * 256 + s.getD 2 0 = versionTLS10

instance (s : ByteStream) : Decidable (tlsCond s) := by
  unfold tlsCond; infer_instance

/-- Sniffing outcome of `Handle`: which path the dispatcher takes
(`passthrough` is the opaque-relay outcome). -/
inductive SniffClass where
  | tls
  | http
  | passthrough
  deriving DecidableEq, Repr

/-- Classification computed by the sniffing block of `Handle`. -/
def sniffClass (parseHTTP : ByteStream → Bool) (s : ByteStream) : SniffClass :=
  if tlsCond s then .tls
  else if parseHTTP (afterTLSProbe s) then .http
  else .passthrough

/-- The byte stream the downstream consumer of the sniffing block
observes: on the TLS path, the replayed header array bytes then the
live rest; on the HTTP/Opaque path, additionally the HTTP probe
consumes `consumed` bytes into `buf` which are then replayed in front
of the live remainder. -/
def sniffDownstream (consumed : ByteStream → Nat) (s : ByteStream) : ByteStream :=
  let rw1 := afterTLSProbe s
  if tlsCond s then rw1
  else
    let k := consumed rw1
    rw1.take k ++ rw1.drop k

/-! ## Relay handlers -/

/-- Observable side effects of a handler run, in order. -/
inductive Act where
  | dial (network addr : Str)
  | readReq
  | writeReq
  | readResp
  | writeResp
  | relay
  deriving DecidableEq, Repr

/-- Result of `handleHTTP`. -/
inductive HttpRes where
  | ok
  | errReadReq
  | errDial
  | errWriteReq
  | errReadResp
  | errWriteResp
  deriving DecidableEq, Repr

/-- The destination host `handleHTTP` computes from the request Host
header: kept as is when `SplitHostPort` succeeds, else joined with the
default port 80. -/
def httpHostOf (rawHost : Str) : Str :=
  if (splitHostPort rawHost).isSome then rawHost
  else joinHostPort rawHost "80".data

/-- Model of `handleHTTP`: read exactly one request, derive the host,
check bypass, dial, forward the request, read exactly one response,
write it back. `reqHost?` is the result of `http.ReadRequest` (the Host
header of the parsed request, or `none` on parse error); the booleans
are the success of the subsequent collaborator calls. -/
def handleHTTPModel (reqHost? : Option Str) (bypass : Str → Bool)
    (dialOk writeReqOk readRespOk writeRespOk : Bool) : List Act × HttpRes :=
  match reqHost? with
  | none => ([.readReq], .errReadReq)
  | some rawHost =>
    let host := httpHostOf rawHost
    if bypass host then ([.readReq], .ok)
    else if ¬ dialOk then ([.readReq, .dial "tcp".data host], .errDial)
    else if ¬ writeReqOk then
      ([.readReq, .dial "tcp".data host, .writeReq], .errWriteReq)
    else if ¬ readRespOk then
      ([.readReq, .dial "tcp".data host, .writeReq, .readResp], .errReadResp)
    else if ¬ writeRespOk then
      ([.readReq, .dial "tcp".data host, .writeReq, .readResp, .writeResp], .errWriteResp)
    else ([.readReq, .dial "tcp".data host, .writeReq, .readResp, .writeResp], .ok)

/-- Result of `handleHTTPS`, carrying the ClientHello decode error when
`getServerName` fails. -/
inductive HttpsRes (ε : Type) where
  | ok
  | errSNI (e : ε)
  | errDial
  deriving DecidableEq, Repr

/-- The routing host `handleHTTPS` computes: the original destination
when the SNI host is empty; the SNI host as is when it already carries
a port; else the SNI host joined with the port of the original
destination, or 443 when that port is absent or empty. -/
def tlsRoutingHost (sni dst : Str) : Str :=
  if sni = [] then dst
  else if (splitHostPort sni).isSome then sni
  else
    let p := match splitHostPort dst with
      | some hp => hp.2
      | none => []
    joinHostPort sni (if p = [] then "443".data else p)

/-- Model of `handleHTTPS`: extract the server name (an external TLS
dissector call whose outcome is `sniRes`; `Except.ok []` means no SNI
extension), compute the routing host, check bypass, dial, relay the
buffered ClientHello plus the rest of the stream. -/
def handleHTTPSModel {ε : Type} (sniRes : Except ε Str) (dst : Str)
    (bypass : Str → Bool) (dialOk : Bool) : List Act × HttpsRes ε :=
  match sniRes with
  | .error e => ([], .errSNI e)
  | .ok sni =>
    let host := tlsRoutingHost sni dst
    if bypass host then ([], .ok)
    else if dialOk then ([.dial "tcp".data host, .relay], .ok)
    else ([.dial "tcp".data host], .errDial)

/-- Result of the raw-relay tail of `Handle`. -/
inductive RawRes where
  | ok
  | errDial
  deriving DecidableEq, Repr

/-- Model of the raw (opaque) tail of `Handle`: bypass check on the
original destination string, then dial and relay. -/
def handleRawModel (bypass : Str → Bool) (dialOk : Bool)
    (dstNetwork dstStr : Str) : List Act × RawRes :=
  if bypass dstStr then ([], .ok)
  else if dialOk then ([.dial dstNetwork dstStr, .relay], .ok)
  else ([.dial dstNetwork dstStr], .errDial)

/-! ## Helper lemmas -/

theorem splitOnChar_ne_nil (c : Char) : ∀ s : Str, splitOnChar c s ≠ []
  | [] => by simp [splitOnChar]
  | a :: rest => by
    unfold splitOnChar
    by_cases h : a = c
    · simp [h]
    · simp only [if_neg h]
      cases hr : splitOnChar c rest with
      | nil => simp
      | cons x xs => simp

theorem splitOnChar_length_ge_two (c : Char) :
    ∀ s : Str, c ∈ s → 2 ≤ (splitOnChar c s).length
  | a :: rest, hmem => by
    unfold splitOnChar
    by_cases h : a = c
    · simp only [if_pos h, List.length_cons]
      have := splitOnChar_ne_nil c rest
      cases hr : splitOnChar c rest with
      | nil => exact absurd hr this
      | cons x xs => simp
    · simp only [if_neg h]
      have hmem2 : c ∈ rest := by
        cases hmem with
        | head => exact absurd rfl h
        | tail _ hm => exact hm
      have ih := splitOnChar_length_ge_two c rest hmem2
      cases hr : splitOnChar c rest with
      | nil => exact absurd hr (splitOnChar_ne_nil c rest)
      | cons x xs =>
        rw [hr] at ih
        simpa using ih

theorem splitOnChar_head_takeWhile (c : Char) :
    ∀ (s : Str) (first : Str) (t : List Str),
      splitOnChar c s = first :: t → first = s.takeWhile (fun x => ¬ x = c)
  | [], first, t, h => by
    simp [splitOnChar] at h
    simp [h.1]
  | a :: rest, first, t, h => by
    unfold splitOnChar at h
    by_cases hac : a = c
    · simp only [if_pos hac] at h
      simp [List.takeWhile, hac]
      exact (List.cons_eq_cons.mp h).1.symm
    · simp only [if_neg hac] at h
      cases hr : splitOnChar c rest with
      | nil => exact absurd hr (splitOnChar_ne_nil c rest)
      | cons x xs =>
        rw [hr] at h
        have hx := splitOnChar_head_takeWhile c rest x xs hr
        have hfst : first = a :: x := (List.cons_eq_cons.mp h).1.symm
        simp [List.takeWhile, hac, hfst, hx]

/-- A table in which no line carries both the state tag and one of the
two key substrings makes the scan fall through to the error return. -/
theorem lookupLines_no_match (specv4 specv6 : Str) :
    ∀ ls : List Str,
      (∀ line ∈ ls,
        ¬(containsSub estTag line = true ∧
          (containsSub specv4 line = true ∨ containsSub specv6 line = true))) →
      lookupLines specv4 specv6 ls = .err
  | [], _ => rfl
  | line :: rest, h => by
    have hrest := lookupLines_no_match specv4 specv6 rest
      (fun l hl => h l (List.mem_cons_of_mem _ hl))
    have hline := h line (List.mem_cons_self _ _)
    unfold lookupLines
    by_cases ht : containsSub estTag line = true
    · have h4 : containsSub specv4 line = false := by
        cases hc : containsSub specv4 line
        · rfl
        · exact absurd ⟨ht, Or.inl hc⟩ hline
      have h6 : containsSub specv6 line = false := by
        cases hc : containsSub specv6 line
        · rfl
        · exact absurd ⟨ht, Or.inr hc⟩ hline
      simp [ht, h4, h6, hrest]
    · simp [Bool.not_eq_true] at ht
      simp [ht, hrest]

/-- The scan never panics when every tag-and-IPv6-matched line with at
least five fields has an opening bracket in its 5th field. -/
theorem lookupLines_no_panic (specv4 specv6 : Str) :
    ∀ ls : List Str,
      (∀ line ∈ ls,
        containsSub estTag line = true →
        containsSub specv4 line = false →
        containsSub specv6 line = true →
        4 < (fields line).length →
        '[' ∈ (fields line).getD 4 []) →
      lookupLines specv4 specv6 ls ≠ .panicked
  | [], _ => by simp [lookupLines]
  | line :: rest, h => by
    have hrest := lookupLines_no_panic specv4 specv6 rest
      (fun l hl => h l (List.mem_cons_of_mem _ hl))
    have hline := h line (List.mem_cons_self _ _)
    unfold lookupLines
    by_cases ht : containsSub estTag line = true
    · by_cases h4 : containsSub specv4 line = true
      · simp only [ht, h4, if_pos rfl]
        by_cases hlen : 4 < (fields line).length
        · simp only [if_pos hlen]
          by_cases h2 : (splitOnChar ':' ((fields line).getD 4 [])).length = 2
          · rw [List.getD_eq_getElem?_getD] at h2
            simp [h2]
          · rw [List.getD_eq_getElem?_getD] at h2
            simp [h2, hrest]
        · simp [hlen, hrest]
      · by_cases h6 : containsSub specv6 line = true
        · simp only [ht, h4, h6, if_pos rfl, Bool.false_eq_true, if_neg (by simp : ¬False)]
          by_cases hlen : 4 < (fields line).length
          · have hbr : '[' ∈ (fields line).getD 4 [] := by
              apply hline ht _ h6 hlen
              simpa using h4
            have hsp := splitOnChar_length_ge_two '[' _ hbr
            have hgt : ¬ (splitOnChar '[' ((fields line).getD 4 [])).length ≤ 1 := by omega
            rw [List.getD_eq_getElem?_getD] at hgt
            simp only [if_pos hlen]
            simp [hgt]
          · simp [hlen, hrest]
        · simp [ht, h4, h6, hrest]
    · simp [Bool.not_eq_true] at ht
      simp [ht, hrest]

/-! ## Claim theorems -/

/-- Claim C1: the spec requires a failure of the pfctl state-query
command to yield a per-connection ResolutionError (logged, connection
closed, siblings unaffected). The code instead calls `panic(err)`:
`PfctlLookup` on a command error evaluates to the panic outcome, which
in Go aborts the whole process, not just the one connection. This
theorem evaluates the embedded code at the failing input. -/
theorem pfctlLookup_panics_on_command_error :
    PfctlLookup (Except.error ()) "192.168.1.13".data 57474 = .panicked := rfl

/-- Claim C3: the state-table lookup resolves the literal IPv4 line to
(23.205.82.58, 443), resolves the literal IPv6 line to
(2606:4700:30::681f:4ad0, 443), and returns the resolution error on
every table without a line carrying the ESTABLISHED:ESTABLISHED tag
together with one of the two key substrings. -/
theorem lookup_parses_literal_lines :
    lookup "192.168.1.13".data 57474
      "ALL tcp 192.168.1.13:57474 -> 23.205.82.58:443       ESTABLISHED:ESTABLISHED".data
      = .ok "23.205.82.58".data 443
    ∧ lookup "2a01:e35:8bae:50f0:9d9b:ef0d:2de3:b733".data 58505
      "ALL tcp 2a01:e35:8bae:50f0:9d9b:ef0d:2de3:b733[58505] -> 2606:4700:30::681f:4ad0[443]  ESTABLISHED:ESTABLISHED".data
      = .ok "2606:4700:30::681f:4ad0".data 443
    ∧ ∀ (address : Str) (port : Int) (s : Str),
      (∀ line ∈ splitOnChar '\n' s,
        ¬(containsSub estTag line = true ∧
          (containsSub (specV4 address port) line = true ∨
            containsSub (specV6 address port) line = true))) →
      lookup address port s = .err := by
  refine ⟨by decide, by decide, ?_⟩
  intro address port s h
  exact lookupLines_no_match _ _ _ h

/-- Witness for C3: a concrete table with no matching line resolves to
the error. -/
theorem lookup_parses_literal_lines_witness :
    lookup "1.2.3.4".data 5 "no entries".data = .err :=
  lookup_parses_literal_lines.2.2 "1.2.3.4".data 5 "no entries".data (by decide)

/-- Counterexample to C4: `lookup` is not panic-free. On a table line
that carries the ESTABLISHED:ESTABLISHED tag and the IPv6-style key
substring `a[1]` but whose 5th whitespace field `v` contains no
opening bracket, the access `portPart[1]` is out of range and the Go
code panics. -/
theorem lookup_panics_on_crafted_line :
    lookup "a".data 1 "x y z w v ESTABLISHED:ESTABLISHED a[1]".data = .panicked := by
  decide

/-- Claim C4 as amended: `lookup` always returns a result or the
resolution error — it never panics — provided every line that carries
the state tag, lacks the IPv4 key substring, contains the IPv6 key
substring and has more than four whitespace fields, has an opening
bracket in its 5th field; on a line violating this proviso the Go
code panics with an index-out-of-range. -/
theorem lookup_total_unless_bracketless_field (address : Str) (port : Int) (s : Str)
    (h : ∀ line ∈ splitOnChar '\n' s,
      containsSub estTag line = true →
      containsSub (specV4 address port) line = false →
      containsSub (specV6 address port) line = true →
      4 < (fields line).length →
      '[' ∈ (fields line).getD 4 []) :
    lookup address port s ≠ .panicked :=
  lookupLines_no_panic _ _ _ h

/-- Witness for the amended C4: on a concrete harmless table the
lookup does not panic. -/
theorem lookup_total_unless_bracketless_field_witness :
    lookup "a".data 1 "no entries".data ≠ .panicked :=
  lookup_total_unless_bracketless_field "a".data 1 "no entries".data (by decide)

/-- Counterexample to C5: for the IPv6-formatted remote address
`[1:2::3]:80` (more than one colon), the derived key port is 2, not 0:
the second colon-segment `2` parses as a decimal integer, so the
discarded-error `Atoi` does not always yield 0. -/
theorem localToRemoteKey_port_not_always_zero :
    1 < ("[1:2::3]:80".data.count ':')
    ∧ localToRemoteKey "[1:2::3]:80".data = some ("[1".data, 2)
    ∧ ¬((2 : Int) = 0) := by decide

/-- Claim C5 as amended: the key host is the text before the first
colon of the remote address and the key port is `Atoi` of the second
colon-segment with the error discarded (0 unless that segment is a
decimal integer); in particular, for the bracketed IPv6 remote of the
literal spec example the key is (`[2a01`, 0), and the state-table
lookup with that key against the literal IPv6 line fails, so
resolution cannot match the IPv6 line format for such a client. -/
theorem localToRemoteKey_truncates_ipv6 (s first second : Str) (t : List Str)
    (h : splitOnChar ':' s = first :: second :: t) :
    localToRemoteKey s
      = some (s.takeWhile (fun x => ¬ x = ':'), (atoi? second).getD 0)
    ∧ localToRemoteKey "[2a01:e35:8bae:50f0:9d9b:ef0d:2de3:b733]:58505".data
      = some ("[2a01".data, 0)
    ∧ lookup "[2a01".data 0
      "ALL tcp 2a01:e35:8bae:50f0:9d9b:ef0d:2de3:b733[58505] -> 2606:4700:30::681f:4ad0[443]  ESTABLISHED:ESTABLISHED".data
      = .err := by
  refine ⟨?_, by decide, by decide⟩
  have hfirst := splitOnChar_head_takeWhile ':' s first (second :: t) h
  unfold localToRemoteKey
  rw [h, hfirst]

/-- Witness for the amended C5: key derivation at the concrete remote
address `a:5`. -/
theorem localToRemoteKey_truncates_ipv6_witness :
    localToRemoteKey "a:5".data = some ("a".data, (5 : Int)) := by
  rw [(localToRemoteKey_truncates_ipv6 "a:5".data "a".data "5".data [] (by decide)).1]
  decide

/-- When the stream supplied the full record header, the replayed
stream equals the original stream. -/
theorem afterTLSProbe_of_full_header (s : ByteStream) (h : recordHeaderLen ≤ s.length) :
    afterTLSProbe s = s := by
  unfold afterTLSProbe hdrArray
  rw [Nat.sub_eq_zero_of_le h]
  simp

/-- When the stream ran short of the record header, the replayed
stream has exactly the header size: the bytes read plus zero padding. -/
theorem afterTLSProbe_of_short (s : ByteStream) (h : s.length < recordHeaderLen) :
    (afterTLSProbe s).length = recordHeaderLen := by
  unfold afterTLSProbe hdrArray recordHeaderLen at *
  simp
  omega

/-- The downstream bytes do not depend on how much the HTTP probe
consumed: the tee replays every consumed byte in front of the live
remainder. -/
theorem sniffDownstream_eq_afterTLSProbe (consumed : ByteStream → Nat) (s : ByteStream) :
    sniffDownstream consumed s = afterTLSProbe s := by
  unfold sniffDownstream
  by_cases h : tlsCond s <;> simp [h]

/-- Claim C2: the spec requires exact replay — the bytes observed
downstream equal the original input for all three outcomes, and a
stream shorter than the TLS probe size must fall through to the HTTP
probe with only the bytes actually read. The code instead replays the
whole 5-byte `hdr` array via `bytes.NewReader(hdr[:])` even when
`io.ReadFull` read fewer bytes: for the 3-byte input `GET` the
downstream consumer observes `GET` followed by two zero bytes. This
theorem evaluates the embedded sniffer at that failing input. -/
theorem sniffer_pads_short_streams :
    sniffDownstream (fun _ => 0) [71, 69, 84] = [71, 69, 84, 0, 0]
    ∧ sniffClass (fun _ => false) [71, 69, 84] = .passthrough
    ∧ ¬(sniffDownstream (fun _ => 0) [71, 69, 84] = [71, 69, 84]) := by decide

/-- Claim C7: a stream that starts with the handshake record type and
the TLS 1.0 version marker (and supplies the full 5-byte header)
classifies as TLS regardless of the bytes that follow; a stream not
satisfying the TLS dispatch condition but parseable as a well-formed
HTTP request classifies as HTTP; every other such stream classifies as
opaque (`passthrough`). The external HTTP parser is abstracted by
`parseHTTP`; the hypothesis records that no well-formed HTTP request
fits in fewer than 6 bytes, which rules the zero-padded short probe
out. -/
theorem sniffClass_correct (parseHTTP : ByteStream → Bool) (s : ByteStream)
    (hmin : ∀ t : ByteStream, parseHTTP t = true → 6 ≤ t.length) :
    (∀ (w x : Nat) (rest : List Nat),
      sniffClass parseHTTP (handshakeType :: 3 :: 1 :: w :: x :: rest) = .tls)
    ∧ (¬ tlsCond s → parseHTTP s = true → sniffClass parseHTTP s = .http)
    ∧ (¬ tlsCond s → parseHTTP s = false → sniffClass parseHTTP s = .passthrough) := by
  refine ⟨?_, ?_, ?_⟩
  · intro w x rest
    have hc : tlsCond (handshakeType :: 3 :: 1 :: w :: x :: rest) := by
      refine ⟨by simp [recordHeaderLen], by simp [List.getD], ?_⟩
      simp [List.getD, versionTLS10]
    simp [sniffClass, hc]
  · intro hn hp
    have hlen : 6 ≤ s.length := hmin s hp
    have he : afterTLSProbe s = s :=
      afterTLSProbe_of_full_header s (by unfold recordHeaderLen; omega)
    simp [sniffClass, hn, he, hp]
  · intro hn hp
    by_cases hlen : recordHeaderLen ≤ s.length
    · simp [sniffClass, hn, afterTLSProbe_of_full_header s hlen, hp]
    · have h5 : (afterTLSProbe s).length = recordHeaderLen :=
        afterTLSProbe_of_short s (by omega)
      have hpf : parseHTTP (afterTLSProbe s) = false := by
        cases hh : parseHTTP (afterTLSProbe s)
        · rfl
        · have := hmin _ hh
          rw [h5] at this
          exact absurd this (by unfold recordHeaderLen; omega)
      simp [sniffClass, hn, hpf]

/-- Witness for C7: a concrete TLS-looking header classifies as TLS,
and a concrete non-TLS non-HTTP stream classifies as opaque. -/
theorem sniffClass_correct_witness :
    sniffClass (fun _ => false) [22, 3, 1, 7, 9] = .tls
    ∧ sniffClass (fun _ => false) [0, 1, 2, 3, 4, 5] = .passthrough := by
  have h := sniffClass_correct (fun _ => false) [0, 1, 2, 3, 4, 5]
    (fun t ht => absurd ht (by simp))
  exact ⟨h.1 7 9 [], h.2.2 (by decide) rfl⟩

/-- Claim C6: for a request whose Host header is `example.com` (no
port), `handleHTTP` dials tcp `example.com:80`, forwards the parsed
request once, reads exactly one response and writes it back, and never
reads a second request: the complete action trace is
read-request, dial, write-request, read-response, write-response. -/
theorem handleHTTP_single_exchange (bypass : Str → Bool)
    (hb : bypass "example.com:80".data = false) :
    handleHTTPModel (some "example.com".data) bypass true true true true
      = ([.readReq, .dial "tcp".data "example.com:80".data,
          .writeReq, .readResp, .writeResp], .ok)
    ∧ httpHostOf "example.com".data = "example.com:80".data
    ∧ (handleHTTPModel (some "example.com".data) bypass true true true true).1.count
        Act.readReq = 1
    ∧ (handleHTTPModel (some "example.com".data) bypass true true true true).1.count
        Act.readResp = 1 := by
  have hh : httpHostOf "example.com".data = "example.com:80".data := by decide
  have h1 : handleHTTPModel (some "example.com".data) bypass true true true true
      = ([.readReq, .dial "tcp".data "example.com:80".data,
          .writeReq, .readResp, .writeResp], .ok) := by
    simp only [handleHTTPModel, hh]
    simp [hb]
  refine ⟨h1, hh, ?_, ?_⟩ <;> rw [h1] <;> decide

/-- Witness for C6: the same run with the trivial bypass policy. -/
theorem handleHTTP_single_exchange_witness :
    handleHTTPModel (some "example.com".data) (fun _ => false) true true true true
      = ([.readReq, .dial "tcp".data "example.com:80".data,
          .writeReq, .readResp, .writeResp], .ok) :=
  (handleHTTP_single_exchange (fun _ => false) rfl).1

/-- Claim C8: the TLS routing target is the original destination when
the SNI host is absent (empty); the SNI host joined with the port of
the original destination when the SNI host carries no port and that
port is nonempty; and the SNI host joined with 443 when the port of
the original destination is also absent or empty. -/
theorem tlsRoutingHost_spec :
    (∀ dst : Str, tlsRoutingHost [] dst = dst)
    ∧ (∀ (sni dst hP pP : Str), ¬ sni = [] → splitHostPort sni = none →
        splitHostPort dst = some (hP, pP) → ¬ pP = [] →
        tlsRoutingHost sni dst = joinHostPort sni pP)
    ∧ (∀ sni dst : Str, ¬ sni = [] → splitHostPort sni = none →
        (splitHostPort dst = none ∨ ∃ hP, splitHostPort dst = some (hP, [])) →
        tlsRoutingHost sni dst = joinHostPort sni "443".data) := by
  refine ⟨fun dst => by simp [tlsRoutingHost], ?_, ?_⟩
  · intro sni dst hP pP h1 h2 h3 h4
    simp [tlsRoutingHost, h1, h2, h3, h4]
  · intro sni dst h1 h2 h3
    cases h3 with
    | inl h => simp [tlsRoutingHost, h1, h2, h]
    | inr h =>
      obtain ⟨hP, h⟩ := h
      simp [tlsRoutingHost, h1, h2, h]

/-- Witness for C8: SNI `example.com` with original destination
`1.2.3.4:443` routes to `example.com:443`. -/
theorem tlsRoutingHost_spec_witness :
    tlsRoutingHost "example.com".data "1.2.3.4:443".data = "example.com:443".data := by
  rw [tlsRoutingHost_spec.2.1 "example.com".data "1.2.3.4:443".data
    "1.2.3.4".data "443".data (by decide) (by decide) (by decide) (by decide)]
  decide

/-- Claim C9: on the raw, HTTP and TLS paths alike, when the bypass
policy reports true for the resolved destination, the handler performs
no dial (the trace holds no dial action), terminates, and surfaces no
error. -/
theorem bypass_short_circuit :
    (∀ (bypass : Str → Bool) (dialOk : Bool) (dstNetwork dstStr : Str),
      bypass dstStr = true →
      handleRawModel bypass dialOk dstNetwork dstStr = ([], .ok))
    ∧ (∀ (host : Str) (bypass : Str → Bool) (d w r w2 : Bool),
      bypass (httpHostOf host) = true →
      handleHTTPModel (some host) bypass d w r w2 = ([.readReq], .ok))
    ∧ (∀ (sni dst : Str) (bypass : Str → Bool) (dialOk : Bool),
      bypass (tlsRoutingHost sni dst) = true →
      handleHTTPSModel (Except.ok sni : Except Unit Str) dst bypass dialOk
        = ([], .ok)) := by
  refine ⟨?_, ?_, ?_⟩
  · intro bypass dialOk dstNetwork dstStr h
    simp [handleRawModel, h]
  · intro host bypass d w r w2 h
    simp [handleHTTPModel, h]
  · intro sni dst bypass dialOk h
    simp [handleHTTPSModel, h]

/-- Witness for C9: the always-true bypass policy short-circuits all
three paths at concrete destinations. -/
theorem bypass_short_circuit_witness :
    handleRawModel (fun _ => true) true "tcp".data "1.2.3.4:443".data = ([], .ok)
    ∧ handleHTTPModel (some "example.com".data) (fun _ => true) true true true true
      = ([.readReq], .ok)
    ∧ handleHTTPSModel (Except.ok "example.com".data : Except Unit Str)
      "1.2.3.4:443".data (fun _ => true) true = ([], .ok) :=
  ⟨bypass_short_circuit.1 (fun _ => true) true "tcp".data "1.2.3.4:443".data rfl,
   bypass_short_circuit.2.1 "example.com".data (fun _ => true) true true true true rfl,
   bypass_short_circuit.2.2 "example.com".data "1.2.3.4:443".data (fun _ => true) true rfl⟩

/-- Claim C10: on the TLS path, when the leading record does not
decode as a ClientHello, `handleHTTPS` returns that very error with an
empty action trace: no dial is attempted and there is no fallback to
opaque relay toward the original destination. -/
theorem handleHTTPS_decode_error_fatal {ε : Type} (e : ε) (dst : Str)
    (bypass : Str → Bool) (dialOk : Bool) :
    handleHTTPSModel (Except.error e) dst bypass dialOk = ([], .errSNI e) := rfl

end GostRedirect
